import Mathlib

/-!
Verification of the `slurp` batching-and-dispatch engine (`src/main.rs`).

The program reads a JSON array from disk, partitions it into fixed-size
batches (`items.chunks(args.batch)`), builds one SurrealQL INSERT statement
per batch (`build_insert_stmt`), dispatches the batches in parallel over a
rayon pool bounded by `args.threads`, classifies each HTTP response into a
per-batch outcome, folds the outcomes into `(ok_count, err_count)`, and
exits nonzero iff any batch failed.

The shallow embedding below translates each of those pieces into Lean:
JSON values and their compact `serde_json` serialization, the `chunks`
partitioner, the statement builder, the per-batch dispatch-and-classify
step (with the network modelled as an oracle `send` function), the fold
aggregation, and the exit-code policy.  The rayon scheduler, which is an
external library, is modelled from the spec as a transition system.
-/

/-- JSON values as manipulated by the program (`serde_json::Value`).
Numbers are modelled as integers: the program passes numbers through
unmodified and the claims under verification only involve integers. -/
inductive Json where
  | null : Json
  | bool (b : Bool) : Json
  | num (n : Int) : Json
  | str (s : String) : Json
  | arr (elems : List Json) : Json
  | obj (fields : List (String × Json)) : Json

/-- `serde_json` string escaping for one character: `"` and `\` get a
backslash escape, the five short control escapes are used, any other
control character becomes a `\u00XX` escape, everything else is verbatim. -/
def escapeChar (c : Char) : String :=
  if c = '"' then "\\\""
  else if c = '\\' then "\\\\"
  else if c = '\x08' then "\\b"
  else if c = '\x0c' then "\\f"
  else if c = '\n' then "\\n"
  else if c = '\r' then "\\r"
  else if c = '\t' then "\\t"
  else if c.toNat < 0x20 then
    let hexDigit (n : Nat) : String :=
      if n < 10 then String.singleton (Char.ofNat (48 + n))
      else String.singleton (Char.ofNat (87 + n))
    "\\u00" ++ hexDigit (c.toNat / 16) ++ hexDigit (c.toNat % 16)
  else String.singleton c

/-- Compact serialization of a JSON string literal, including the quotes. -/
def renderString (s : String) : String :=
  "\"" ++ String.join (s.toList.map escapeChar) ++ "\""

mutual

/-- Compact `serde_json` serialization of a JSON value (no whitespace). -/
def Json.render : Json → String
  | .null => "null"
  | .bool true => "true"
  | .bool false => "false"
  | .num n => toString n
  | .str s => renderString s
  | .arr es => "[" ++ renderElems es ++ "]"
  | .obj fs => "\x7b" ++ renderFields fs ++ "\x7d"

/-- Comma-separated rendering of array elements. -/
def renderElems : List Json → String
  | [] => ""
  | [x] => x.render
  | x :: y :: xs => x.render ++ "," ++ renderElems (y :: xs)

/-- Comma-separated rendering of object fields as `"key":value`. -/
def renderFields : List (String × Json) → String
  | [] => ""
  | [(k, v)] => renderString k ++ ":" ++ v.render
  | (k, v) :: f :: fs => renderString k ++ ":" ++ v.render ++ "," ++ renderFields (f :: fs)

end

/-- `serde_json::to_string` applied to a `&[Value]` slice: serializes the
slice as a compact JSON array.  For `serde_json::Value` inputs this
serialization is infallible, so it is modelled as a total function. -/
def to_string (batch : List Json) : String :=
  Json.render (Json.arr batch)

/-- `Value::as_array` — `some` of the element list iff the value is an array. -/
def Json.as_array : Json → Option (List Json)
  | .arr es => some es
  | _ => none

/-- `build_insert_stmt` from `src/main.rs`: serialize the batch to a compact
JSON array string and splice it, together with the table name, into
`INSERT INTO {table} {json_array} RETURN NONE;`. -/
def build_insert_stmt (table : String) (batch : List Json) : String :=
  let json_array := to_string batch
  "INSERT INTO " ++ table ++ " " ++ json_array ++ " RETURN NONE;"

/-- `slice::chunks(B)` from the Rust standard library, as used in
`items.chunks(args.batch)`: successive contiguous chunks of `B` elements,
the last one possibly shorter.  Rust panics on `B = 0` (the CLI enforces
`B ≥ 1` upstream); that out-of-domain case is completed with `[]`. -/
def chunks (B : Nat) (xs : List α) : List (List α) :=
  if hB : B = 0 then []
  else if h : xs.isEmpty then []
  else xs.take B :: chunks B (xs.drop B)
termination_by xs.length
decreasing_by
  rw [List.length_drop]
  have hne : xs ≠ [] := by simpa [List.isEmpty_iff] using h
  exact Nat.sub_lt (List.length_pos.mpr hne) (Nat.pos_of_ne_zero hB)

theorem chunks_nil (B : Nat) : chunks B ([] : List α) = [] := by
  rw [chunks]
  simp

theorem chunks_cons (B : Nat) (hB : B ≠ 0) (xs : List α) (h : xs ≠ []) :
    chunks B xs = xs.take B :: chunks B (xs.drop B) := by
  rw [chunks]
  simp [hB, h]

theorem chunks_flatten (B : Nat) (hB : B ≠ 0) (xs : List α) :
    (chunks B xs).flatten = xs := by
  generalize hn : xs.length = n
  induction n using Nat.strong_induction_on generalizing xs with
  | _ n ih =>
    by_cases h : xs = []
    · subst h
      rw [chunks_nil]
      rfl
    · rw [chunks_cons B hB xs h, List.flatten_cons]
      have hlt : (xs.drop B).length < n := by
        rw [List.length_drop, ← hn]
        exact Nat.sub_lt (List.length_pos.mpr h) (Nat.pos_of_ne_zero hB)
      rw [ih _ hlt (xs.drop B) rfl]
      exact List.take_append_drop B xs

theorem chunks_length (B : Nat) (hB : B ≠ 0) (xs : List α) (h : xs ≠ []) :
    (chunks B xs).length = (xs.length - 1) / B + 1 := by
  generalize hn : xs.length = n
  induction n using Nat.strong_induction_on generalizing xs with
  | _ n ih =>
    rw [chunks_cons B hB xs h]
    by_cases hd : xs.drop B = []
    · rw [hd, chunks_nil]
      have hlen : xs.length ≤ B := by
        have := List.length_drop B xs
        rw [hd] at this
        simp at this
        omega
      have h1 : 0 < xs.length := List.length_pos.mpr h
      simp [List.length]
      rw [Nat.div_eq_of_lt (by omega)]
    · have hlt : (xs.drop B).length < n := by
        rw [List.length_drop, ← hn]
        exact Nat.sub_lt (List.length_pos.mpr h) (Nat.pos_of_ne_zero hB)
      rw [List.length_cons, ih _ hlt (xs.drop B) hd rfl]
      have hBlt : B < xs.length := by
        by_contra hc
        exact hd (List.drop_eq_nil_of_le (by omega))
      rw [List.length_drop, ← hn]
      have h2 : xs.length - B - 1 + B = xs.length - 1 := by omega
      have := Nat.add_div_right (xs.length - B - 1) (Nat.pos_of_ne_zero hB)
      rw [h2] at this
      omega

theorem chunks_ceil (B : Nat) (hB : B ≠ 0) (xs : List α) (h : xs ≠ []) :
    (chunks B xs).length = (xs.length + B - 1) / B := by
  rw [chunks_length B hB xs h]
  have h1 : 0 < xs.length := List.length_pos.mpr h
  have h2 : xs.length + B - 1 = (xs.length - 1) + B := by omega
  rw [h2, Nat.add_div_right _ (Nat.pos_of_ne_zero hB)]

theorem chunks_size_le (B : Nat) (hB : B ≠ 0) (xs : List α) :
    ∀ c ∈ chunks B xs, c.length ≤ B := by
  generalize hn : xs.length = n
  induction n using Nat.strong_induction_on generalizing xs with
  | _ n ih =>
    by_cases h : xs = []
    · subst h
      rw [chunks_nil]
      intro c hc
      cases hc
    · rw [chunks_cons B hB xs h]
      intro c hc
      rcases List.mem_cons.mp hc with h1 | h2
      · subst h1
        rw [List.length_take]
        exact min_le_left _ _
      · have hlt : (xs.drop B).length < n := by
          rw [List.length_drop, ← hn]
          exact Nat.sub_lt (List.length_pos.mpr h) (Nat.pos_of_ne_zero hB)
        exact ih _ hlt (xs.drop B) rfl c h2

theorem chunks_get? (B : Nat) (hB : B ≠ 0) (xs : List α) (i : Nat)
    (hi : i < (chunks B xs).length) :
    (chunks B xs).get? i = some ((xs.drop (i * B)).take B) := by
  induction i generalizing xs with
  | zero =>
    have h : xs ≠ [] := by
      intro hc
      subst hc
      rw [chunks_nil] at hi
      exact absurd hi (by simp)
    rw [chunks_cons B hB xs h]
    simp
  | succ i ih =>
    have h : xs ≠ [] := by
      intro hc
      subst hc
      rw [chunks_nil] at hi
      exact absurd hi (by simp)
    rw [chunks_cons B hB xs h] at hi ⊢
    rw [List.get?_cons_succ]
    rw [List.length_cons] at hi
    rw [ih (xs.drop B) (Nat.lt_of_succ_lt_succ hi)]
    rw [List.drop_drop]
    congr 2
    ring

theorem chunks_sizes_sum (B : Nat) (hB : B ≠ 0) (xs : List α) :
    ((chunks B xs).map List.length).sum = xs.length := by
  have := chunks_flatten B hB xs
  calc ((chunks B xs).map List.length).sum
      = (chunks B xs).flatten.length := (List.length_flatten _).symm
    _ = xs.length := by rw [this]

/-- Result of one HTTP POST as seen by the program (`reqwest`'s
`Result<Response, Error>`): either a transport-level error (connection
refused, timeout, DNS failure, carried as a message), or a response with a
numeric status code and a body. -/
inductive HttpResult where
  | transport (msg : String) : HttpResult
  | response (status : Nat) (body : String) : HttpResult

/-- `StatusCode::is_success` from the http crate: status in `200..=299`. -/
def is_success (status : Nat) : Bool :=
  decide (200 ≤ status) && decide (status < 300)

/-- Structured content of a per-batch failure, as constructed at the three
`Err` sites of the per-batch closure in `main`: an HTTP failure carries the
status and the response body, a transport failure carries the error
message. -/
inductive FailReason where
  | httpError (status : Nat) (body : String) : FailReason
  | transportError (msg : String) : FailReason

/-- Outcome of one batch: the closure returns `Ok(())` and reports the
batch's record count on success (`info!("batch #{idx} ok ({} records)")`,
and the synthetic `DRY batch #{idx}: {} records` in dry-run), or `Err` with
the failure data. -/
inductive BatchOutcome where
  | success (count : Nat) : BatchOutcome
  | failure (reason : FailReason) : BatchOutcome

/-- The per-batch closure of `main` (lines 110-148): build the INSERT
statement, short-circuit with a synthetic success in dry-run, otherwise
POST the statement and classify the result.  The network is modelled by
the oracle `send`, mapping the posted statement body to an `HttpResult`. -/
def processBatch (table : String) (dry_run : Bool) (send : String → HttpResult)
    (batch : List Json) : BatchOutcome :=
  let stmt := build_insert_stmt table batch
  if dry_run then .success batch.length
  else
    match send stmt with
    | .response status body =>
      if is_success status then .success batch.length
      else .failure (.httpError status body)
    | .transport msg => .failure (.transportError msg)

/-- `batches.par_iter().enumerate().map(...)`: one outcome per batch, the
outcome at index `idx` computed from batch `idx` alone.  rayon's indexed
parallel map preserves indices, so the result list is indexed like the
batch list; the oracle `send` takes the batch index first, so distinct
batches may see distinct network behaviour. -/
def runBatches (table : String) (dry_run : Bool) (send : Nat → String → HttpResult)
    (batches : List (List Json)) : List BatchOutcome :=
  batches.enum.map (fun p => processBatch table dry_run (send p.1) p.2)

/-- The fold/reduce aggregation (lines 151-161): count `Ok` and `Err`
outcomes into `(ok_count, err_count)`. -/
def countOutcomes (outcomes : List BatchOutcome) : Nat × Nat :=
  outcomes.foldl
    (fun acc res =>
      match res with
      | .success _ => (acc.1 + 1, acc.2)
      | .failure _ => (acc.1, acc.2 + 1))
    (0, 0)

/-- Number of successful outcomes in a list. -/
def countSucc : List BatchOutcome → Nat
  | [] => 0
  | .success _ :: t => countSucc t + 1
  | .failure _ :: t => countSucc t

/-- Number of failed outcomes in a list. -/
def countFail : List BatchOutcome → Nat
  | [] => 0
  | .success _ :: t => countFail t
  | .failure _ :: t => countFail t + 1

/-- Result of loading the input file, up to the point where `main` holds a
parsed JSON value: `fs::read_to_string` may fail, `serde_json::from_str`
may fail, otherwise a `Value` is obtained. -/
inductive LoadResult where
  | readError (msg : String) : LoadResult
  | parseError (msg : String) : LoadResult
  | parsed (v : Json) : LoadResult

/-- Observable outcome of a whole run of `main`: a fatal input error
(the `?` on read/parse or the `as_array` bail, before any dispatch), the
empty-input short circuit (`return Ok(())`), or a completed dispatch with
the aggregated `(ok_count, err_count)`. -/
inductive RunOutcome where
  | inputError (msg : String) : RunOutcome
  | emptyInput : RunOutcome
  | completed (ok_count err_count : Nat) : RunOutcome

/-- The pipeline of `main` (lines 65-162): load, require a JSON array,
short-circuit on empty input, partition into chunks of `batch` items,
dispatch every batch, aggregate the outcomes. -/
def run (table : String) (batch : Nat) (dry_run : Bool)
    (send : Nat → String → HttpResult) (load : LoadResult) : RunOutcome :=
  match load with
  | .readError msg => .inputError msg
  | .parseError msg => .inputError msg
  | .parsed v =>
    match v.as_array with
    | none => .inputError "input must be a JSON array"
    | some items =>
      if items.isEmpty then .emptyInput
      else
        let batches := chunks batch items
        let outcomes := runBatches table dry_run send batches
        let counts := countOutcomes outcomes
        .completed counts.1 counts.2

/-- Process exit code (lines 164-172 plus the `anyhow::Result` return of
`main`): an input error propagated through `?` makes `main` return `Err`,
which the Rust runtime turns into exit code 1; `err_count > 0` triggers
`std::process::exit(1)`; every other path returns `Ok(())`, exit code 0. -/
def processExit : RunOutcome → Nat
  | .inputError _ => 1
  | .emptyInput => 0
  | .completed _ err_count => if err_count > 0 then 1 else 0

theorem countOutcomes_go (l : List BatchOutcome) :
    ∀ a : Nat × Nat,
      l.foldl
        (fun acc res =>
          match res with
          | .success _ => (acc.1 + 1, acc.2)
          | .failure _ => (acc.1, acc.2 + 1))
        a = (a.1 + countSucc l, a.2 + countFail l) := by
  induction l with
  | nil => intro a; simp [countSucc, countFail]
  | cons h t ih =>
    intro a
    cases h with
    | success n =>
      rw [List.foldl_cons, ih]
      simp [countSucc, countFail]
      omega
    | failure r =>
      rw [List.foldl_cons, ih]
      simp [countSucc, countFail]
      omega

theorem countOutcomes_eq (l : List BatchOutcome) :
    countOutcomes l = (countSucc l, countFail l) := by
  rw [countOutcomes, countOutcomes_go]
  simp

theorem countSucc_add_countFail (l : List BatchOutcome) :
    countSucc l + countFail l = l.length := by
  induction l with
  | nil => rfl
  | cons h t ih =>
    cases h with
    | success n => simp [countSucc, countFail]; omega
    | failure r => simp [countSucc, countFail]; omega

theorem countFail_eq_zero_iff (l : List BatchOutcome) :
    countFail l = 0 ↔ ∀ o ∈ l, ∃ n, o = BatchOutcome.success n := by
  induction l with
  | nil => simp [countFail]
  | cons h t ih =>
    cases h with
    | success n => simp [countFail, ih]
    | failure r =>
      simp only [countFail]
      constructor
      · intro h0
        exact (Nat.succ_ne_zero _ h0).elim
      · intro hall
        have hmem := hall (.failure r) (List.mem_cons_self _ _)
        rcases hmem with ⟨n, hn⟩
        cases hn

theorem runBatches_length (table : String) (dry_run : Bool)
    (send : Nat → String → HttpResult) (batches : List (List Json)) :
    (runBatches table dry_run send batches).length = batches.length := by
  rw [runBatches, List.length_map, List.enum_length]

theorem runBatches_get? (table : String) (dry_run : Bool)
    (send : Nat → String → HttpResult) (batches : List (List Json)) (i : Nat) :
    (runBatches table dry_run send batches).get? i =
      (batches.get? i).map (fun b => processBatch table dry_run (send i) b) := by
  rw [runBatches, List.get?_map, List.get?_enum]
  cases batches.get? i <;> rfl

/-- Modelled from the spec: the worker pool itself is rayon
(`ThreadPoolBuilder::new().num_threads(args.threads)`), an external
library not part of this repository.  Spec §5 describes the scheduling
model: a fixed pool of `T` workers, each batch's pipeline runs on exactly
one worker to completion, and workers pull the next pending batch when
free.  A scheduler state tracks which batch indices are still pending (in
queue order), which are currently occupying a worker, and which are done
with their outcome. -/
structure SchedState where
  pending : List Nat
  running : List Nat
  done : List (Nat × BatchOutcome)

/-- Modelled from the spec: one scheduler transition.  A pending batch may
start only when a worker is free, i.e. when fewer than `T` batches are
running (`start`); a running batch may finish, recording its outcome
(`finish`, with `outcome` giving the per-batch result).  Finishing frees
the worker, which is what lets a queued batch start later. -/
inductive SchedStep (T : Nat) (outcome : Nat → BatchOutcome) :
    SchedState → SchedState → Prop where
  | start (i : Nat) (rest running : List Nat) (done : List (Nat × BatchOutcome)) :
      running.length < T →
      SchedStep T outcome ⟨i :: rest, running, done⟩ ⟨rest, i :: running, done⟩
  | finish (pending r1 r2 : List Nat) (i : Nat) (done : List (Nat × BatchOutcome)) :
      SchedStep T outcome ⟨pending, r1 ++ i :: r2, done⟩
        ⟨pending, r1 ++ r2, (i, outcome i) :: done⟩

/-- Initial scheduler state for `n` batches: all of `0..n` queued, nothing
running, nothing done. -/
def schedInit (n : Nat) : SchedState :=
  ⟨List.range n, [], []⟩

/-- One scheduler step keeps the number of concurrently running batches at
or below the worker budget `T`. -/
theorem schedStep_bound (T : Nat) (outcome : Nat → BatchOutcome)
    (s s' : SchedState) (hstep : SchedStep T outcome s s')
    (h : s.running.length ≤ T) : s'.running.length ≤ T := by
  cases hstep with
  | start i rest running done hlt =>
    simpa using hlt
  | finish pending r1 r2 i done =>
    simp only [List.length_append] at h ⊢
    simp only [List.length_cons] at h
    omega

/-- One scheduler step conserves the batch population: every batch is at
all times in exactly one of the pending queue, the running set, or the
done list. -/
theorem schedStep_conserve (T : Nat) (outcome : Nat → BatchOutcome)
    (s s' : SchedState) (hstep : SchedStep T outcome s s') :
    s'.pending.length + s'.running.length + s'.done.length =
      s.pending.length + s.running.length + s.done.length := by
  cases hstep with
  | start i rest running done hlt => simp; omega
  | finish pending r1 r2 i done => simp; omega

/-- Claim C1: for every non-empty input sequence of length `L` and batch
size `B ≥ 1`, the partitioner produces exactly `⌈L/B⌉` batches; batch `i`
contains the items at positions `[i*B, min((i+1)*B, L))`; every batch has
size at most `B`; the batch sizes sum to `L`; and concatenating the
batches in index order reproduces the input sequence exactly. -/
theorem partitioner_correct {α : Type} (B : Nat) (xs : List α)
    (hB : 1 ≤ B) (hxs : xs ≠ []) :
    (chunks B xs).length = (xs.length + B - 1) / B ∧
    (∀ i, i < (chunks B xs).length →
        (chunks B xs).get? i = some ((xs.drop (i * B)).take B)) ∧
    (∀ c ∈ chunks B xs, c.length ≤ B) ∧
    ((chunks B xs).map List.length).sum = xs.length ∧
    (chunks B xs).flatten = xs := by
  have hB0 : B ≠ 0 := Nat.one_le_iff_ne_zero.mp hB
  exact ⟨chunks_ceil B hB0 xs hxs,
    fun i hi => chunks_get? B hB0 xs i hi,
    chunks_size_le B hB0 xs,
    chunks_sizes_sum B hB0 xs,
    chunks_flatten B hB0 xs⟩

/-- Witness for C1 at `B = 2`, `xs = [0, 1, 2, 3, 4]`. -/
theorem partitioner_correct_witness :
    (1 ≤ 2 ∧ ([0, 1, 2, 3, 4] : List Nat) ≠ []) ∧
    (chunks 2 ([0, 1, 2, 3, 4] : List Nat)).length = (5 + 2 - 1) / 2 ∧
    (chunks 2 ([0, 1, 2, 3, 4] : List Nat)).flatten = [0, 1, 2, 3, 4] := by
  have h := partitioner_correct 2 ([0, 1, 2, 3, 4] : List Nat)
    (by decide) (by decide)
  exact ⟨⟨by decide, by decide⟩, by simpa using h.1, h.2.2.2.2⟩

/-- The end-to-end example input `[{"a":1},{"a":2},{"a":3}]` of the spec. -/
def exampleItems : List Json :=
  [Json.obj [("a", Json.num 1)], Json.obj [("a", Json.num 2)], Json.obj [("a", Json.num 3)]]

/-- Claim C2: the statement builder is deterministic and returns exactly
`"INSERT INTO " ++ table ++ " " ++ json(batch) ++ " RETURN NONE;"`; on the
input `[{"a":1},{"a":2},{"a":3}]` with batch size 2 and table `t` the two
generated commands are the two INSERT strings of the spec. -/
theorem build_stmt_correct :
    (∀ (t : String) (b : List Json),
        build_insert_stmt t b =
          "INSERT INTO " ++ t ++ " " ++ to_string b ++ " RETURN NONE;") ∧
    (chunks 2 exampleItems).map (build_insert_stmt "t") =
      ["INSERT INTO t [\x7b\"a\":1\x7d,\x7b\"a\":2\x7d] RETURN NONE;",
       "INSERT INTO t [\x7b\"a\":3\x7d] RETURN NONE;"] := by
  constructor
  · intro t b
    rfl
  · have hc : chunks 2 exampleItems =
        [[Json.obj [("a", Json.num 1)], Json.obj [("a", Json.num 2)]],
         [Json.obj [("a", Json.num 3)]]] := by
      simp [chunks, exampleItems]
    rw [hc]
    rfl

/-- Claim C3: in dry-run mode, for every input and every batch, no network
submission occurs (the result does not depend on the `send` oracle, which
is universally quantified) and every batch is reported as `Success` with
the batch's item count; dry-run never reports failure. -/
theorem dry_run_all_success (table : String) (send : Nat → String → HttpResult)
    (batches : List (List Json)) :
    runBatches table true send batches =
      batches.map (fun b => BatchOutcome.success b.length) := by
  apply List.ext_get?
  intro i
  rw [runBatches_get?, List.get?_map]
  cases batches.get? i with
  | none => rfl
  | some b => simp [processBatch]

/-- Claim C4: for every dispatched (non-dry-run) batch, a transport-level
failure yields a transport-error failure, a response with a non-success
status yields a failure carrying the status and the response body, and a
response with a success status yields success with the batch's item
count. -/
theorem classify_response (table : String) (send : String → HttpResult)
    (batch : List Json) :
    (∀ msg, send (build_insert_stmt table batch) = .transport msg →
        processBatch table false send batch =
          .failure (.transportError msg)) ∧
    (∀ status body, send (build_insert_stmt table batch) = .response status body →
        is_success status = false →
        processBatch table false send batch =
          .failure (.httpError status body)) ∧
    (∀ status body, send (build_insert_stmt table batch) = .response status body →
        is_success status = true →
        processBatch table false send batch = .success batch.length) := by
  refine ⟨?_, ?_, ?_⟩
  · intro msg hmsg
    simp [processBatch, hmsg]
  · intro status body hresp hfail
    simp [processBatch, hresp, hfail]
  · intro status body hresp hok
    simp [processBatch, hresp, hok]

/-- Witness for C4: a refused connection, an HTTP 500, and an HTTP 200
each classified on a one-item batch. -/
theorem classify_response_witness :
    ((fun _ => HttpResult.transport "connection refused")
        (build_insert_stmt "t" [Json.null]) =
        HttpResult.transport "connection refused" ∧
      processBatch "t" false (fun _ => HttpResult.transport "connection refused")
        [Json.null] = .failure (.transportError "connection refused")) ∧
    (is_success 500 = false ∧
      processBatch "t" false (fun _ => HttpResult.response 500 "server error")
        [Json.null] = .failure (.httpError 500 "server error")) ∧
    (is_success 200 = true ∧
      processBatch "t" false (fun _ => HttpResult.response 200 "")
        [Json.null] = .success 1) := by
  refine ⟨⟨rfl, ?_⟩, ⟨by decide, ?_⟩, ⟨by decide, ?_⟩⟩
  · exact (classify_response "t" _ [Json.null]).1 "connection refused" rfl
  · exact (classify_response "t" _ [Json.null]).2.1 500 "server error" rfl (by decide)
  · exact (classify_response "t" _ [Json.null]).2.2 200 "" rfl (by decide)

theorem isEmpty_false_of_ne_nil {α : Type} {l : List α} (h : l ≠ []) :
    l.isEmpty = false := by
  cases l with
  | nil => exact absurd rfl h
  | cons a t => rfl

/-- Claim C5: every run that reaches the dispatch stage produces exactly
one outcome per batch and completes with `ok_count + err_count` equal to
the total batch count; a loader-stage failure (read error, parse error, or
non-array top-level value) yields an input error whose result is
independent of the network oracle, so no partial dispatch is attempted. -/
theorem outcome_accounting (table : String) (B : Nat) (dry_run : Bool)
    (send : Nat → String → HttpResult) (items : List Json)
    (hB : B ≠ 0) (hne : items ≠ []) :
    (runBatches table dry_run send (chunks B items)).length =
      (chunks B items).length ∧
    run table B dry_run send (.parsed (.arr items)) =
      .completed (countSucc (runBatches table dry_run send (chunks B items)))
        (countFail (runBatches table dry_run send (chunks B items))) ∧
    countSucc (runBatches table dry_run send (chunks B items)) +
      countFail (runBatches table dry_run send (chunks B items)) =
      (chunks B items).length ∧
    (∀ (send' : Nat → String → HttpResult) (msg : String),
        run table B dry_run send' (.readError msg) = .inputError msg ∧
        run table B dry_run send' (.parseError msg) = .inputError msg) ∧
    (∀ (send' : Nat → String → HttpResult) (v : Json), v.as_array = none →
        run table B dry_run send' (.parsed v) =
          .inputError "input must be a JSON array") := by
  refine ⟨runBatches_length table dry_run send (chunks B items), ?_, ?_, ?_, ?_⟩
  · have h1 : items.isEmpty = false := isEmpty_false_of_ne_nil hne
    simp [run, Json.as_array, h1, countOutcomes_eq]
  · rw [countSucc_add_countFail, runBatches_length]
  · intro send' msg
    exact ⟨rfl, rfl⟩
  · intro send' v hv
    simp [run, hv]

/-- Witness for C5 at one item, batch size 1, dry-run, with a concrete
network oracle. -/
theorem outcome_accounting_witness :
    ((1 : Nat) ≠ 0 ∧ [Json.null] ≠ []) ∧
    countSucc (runBatches "t" true (fun _ _ => HttpResult.transport "down")
        (chunks 1 [Json.null])) +
      countFail (runBatches "t" true (fun _ _ => HttpResult.transport "down")
        (chunks 1 [Json.null])) =
      (chunks 1 [Json.null]).length := by
  have h := outcome_accounting "t" 1 true (fun _ _ => HttpResult.transport "down")
    [Json.null] (by decide) (by simp)
  exact ⟨⟨by decide, by simp⟩, h.2.2.1⟩

/-- Claim C6: the process exit code is 0 when the input array was empty
(zero batches dispatched) or when every batch succeeded, and 1 when one or
more batches failed; partial success is never treated as overall
success. -/
theorem exit_code_policy (table : String) (B : Nat) (dry_run : Bool)
    (send : Nat → String → HttpResult) (items : List Json) (hB : B ≠ 0) :
    (items = [] →
        run table B dry_run send (.parsed (.arr items)) = .emptyInput ∧
        processExit (run table B dry_run send (.parsed (.arr items))) = 0 ∧
        chunks B items = []) ∧
    (items ≠ [] →
        (processExit (run table B dry_run send (.parsed (.arr items))) = 0 ↔
          ∀ o ∈ runBatches table dry_run send (chunks B items),
            ∃ n, o = BatchOutcome.success n) ∧
        (0 < countFail (runBatches table dry_run send (chunks B items)) →
          processExit (run table B dry_run send (.parsed (.arr items))) = 1)) := by
  constructor
  · intro hemp
    subst hemp
    exact ⟨rfl, rfl, chunks_nil B⟩
  · intro hne
    have h1 : items.isEmpty = false := isEmpty_false_of_ne_nil hne
    have hrun : run table B dry_run send (.parsed (.arr items)) =
        .completed (countSucc (runBatches table dry_run send (chunks B items)))
          (countFail (runBatches table dry_run send (chunks B items))) := by
      simp [run, Json.as_array, h1, countOutcomes_eq]
    rw [hrun]
    constructor
    · rw [← countFail_eq_zero_iff]
      by_cases hf : countFail (runBatches table dry_run send (chunks B items)) = 0
      · simp [processExit, hf]
      · have hpos := Nat.pos_of_ne_zero hf
        simp [processExit, hpos, hf]
    · intro hpos
      simp [processExit, hpos]

/-- Witness for C6 at batch size 1: the empty input exits 0 with no batch
dispatched, and a run whose only batch fails exits 1. -/
theorem exit_code_policy_witness :
    ((1 : Nat) ≠ 0) ∧
    processExit (run "t" 1 false (fun _ _ => HttpResult.transport "down")
      (.parsed (.arr []))) = 0 ∧
    chunks 1 ([] : List Json) = [] ∧
    processExit (run "t" 1 false (fun _ _ => HttpResult.transport "down")
      (.parsed (.arr [Json.null]))) = 1 := by
  have hempty := (exit_code_policy "t" 1 false
    (fun _ _ => HttpResult.transport "down") [] (by decide)).1 rfl
  have hfail := ((exit_code_policy "t" 1 false
    (fun _ _ => HttpResult.transport "down") [Json.null] (by decide)).2
    (by simp)).2
  refine ⟨by decide, hempty.2.1, hempty.2.2, hfail ?_⟩
  have hc : chunks 1 [Json.null] = [[Json.null]] := by simp [chunks]
  rw [hc]
  have : runBatches "t" false (fun _ _ => HttpResult.transport "down")
      [[Json.null]] =
      [BatchOutcome.failure (.transportError "down")] := by
    simp [runBatches, processBatch]
  rw [this]
  simp [countFail]

/-- Claim C7: if the input file is unreadable, is not valid JSON, or its
top-level value is not a JSON array, the run terminates as a fatal input
error before any batch is dispatched; the result is independent of the
network oracle, so no dispatch side effect occurs. -/
theorem input_error_fatal (table : String) (B : Nat) (dry_run : Bool)
    (send send' : Nat → String → HttpResult) (load : LoadResult)
    (h : (∃ msg, load = .readError msg) ∨ (∃ msg, load = .parseError msg) ∨
      (∃ v, load = .parsed v ∧ v.as_array = none)) :
    (∃ msg, run table B dry_run send load = .inputError msg) ∧
    run table B dry_run send load = run table B dry_run send' load := by
  rcases h with ⟨msg, hm⟩ | ⟨msg, hm⟩ | ⟨v, hv, hva⟩
  · subst hm
    exact ⟨⟨msg, rfl⟩, rfl⟩
  · subst hm
    exact ⟨⟨msg, rfl⟩, rfl⟩
  · subst hv
    refine ⟨⟨"input must be a JSON array", ?_⟩, ?_⟩
    · simp [run, hva]
    · simp [run, hva]

/-- Witness for C7: an unreadable file and a non-array top level, each
under two different network oracles. -/
theorem input_error_fatal_witness :
    ((∃ msg, LoadResult.readError "no such file" = LoadResult.readError msg) ∨
      (∃ msg, LoadResult.readError "no such file" = LoadResult.parseError msg) ∨
      (∃ v, LoadResult.readError "no such file" = LoadResult.parsed v ∧
        v.as_array = none)) ∧
    (∃ msg, run "t" 1 false (fun _ _ => HttpResult.transport "a")
        (.readError "no such file") = .inputError msg) ∧
    run "t" 1 false (fun _ _ => HttpResult.transport "a")
        (.readError "no such file") =
      run "t" 1 false (fun _ _ => HttpResult.response 200 "")
        (.readError "no such file") ∧
    (∃ msg, run "t" 1 false (fun _ _ => HttpResult.transport "a")
        (.parsed (Json.num 3)) = .inputError msg) := by
  have h1 := input_error_fatal "t" 1 false (fun _ _ => HttpResult.transport "a")
    (fun _ _ => HttpResult.response 200 "") (.readError "no such file")
    (Or.inl ⟨"no such file", rfl⟩)
  have h2 := input_error_fatal "t" 1 false (fun _ _ => HttpResult.transport "a")
    (fun _ _ => HttpResult.response 200 "") (.parsed (Json.num 3))
    (Or.inr (Or.inr ⟨Json.num 3, rfl, rfl⟩))
  exact ⟨Or.inl ⟨"no such file", rfl⟩, h1.1, h1.2, h2.1⟩

/-- Claim C8: each batch's outcome is a function of that batch's own
contents and the run configuration only — for two runs that differ solely
at batch `k` (different batch contents and/or different network behaviour
at index `k`), every other batch's outcome is identical in both runs, and
every scheduled batch still yields exactly one outcome. -/
theorem outcome_isolation (table : String) (dry_run : Bool)
    (send send' : Nat → String → HttpResult)
    (bs bs' : List (List Json)) (k : Nat)
    (hlen : bs.length = bs'.length)
    (hb : ∀ i, i ≠ k → bs.get? i = bs'.get? i)
    (hs : ∀ i, i ≠ k → send i = send' i) :
    (runBatches table dry_run send bs).length = bs.length ∧
    (runBatches table dry_run send' bs').length = bs.length ∧
    (∀ i, i ≠ k →
        (runBatches table dry_run send bs).get? i =
          (runBatches table dry_run send' bs').get? i) := by
  refine ⟨runBatches_length table dry_run send bs, ?_, ?_⟩
  · rw [runBatches_length, hlen]
  · intro i hik
    rw [runBatches_get?, runBatches_get?, hb i hik, hs i hik]

/-- Witness for C8: two two-batch runs where both the contents of batch 1
and the network behaviour at index 1 differ; batch 0 is untouched. -/
theorem outcome_isolation_witness :
    (([[Json.null], [Json.num 1]] : List (List Json)).length =
        ([[Json.null], [Json.num 2]] : List (List Json)).length ∧
      (∀ i, i ≠ 1 →
        ([[Json.null], [Json.num 1]] : List (List Json)).get? i =
          ([[Json.null], [Json.num 2]] : List (List Json)).get? i)) ∧
    (runBatches "t" false
        (fun i _ => if i = 1 then HttpResult.transport "timeout"
          else HttpResult.response 200 "")
        [[Json.null], [Json.num 1]]).get? 0 =
      (runBatches "t" false
        (fun i _ => if i = 1 then HttpResult.response 500 "boom"
          else HttpResult.response 200 "")
        [[Json.null], [Json.num 2]]).get? 0 := by
  have hb : ∀ i, i ≠ 1 →
      ([[Json.null], [Json.num 1]] : List (List Json)).get? i =
        ([[Json.null], [Json.num 2]] : List (List Json)).get? i := by
    intro i hik
    match i with
    | 0 => rfl
    | 1 => exact absurd rfl hik
    | n + 2 => rfl
  have hs : ∀ i : Nat, i ≠ 1 →
      (fun (s : String) => if i = 1 then HttpResult.transport "timeout"
        else HttpResult.response 200 "") =
      (fun (s : String) => if i = 1 then HttpResult.response 500 "boom"
        else HttpResult.response 200 "") := by
    intro i hik
    funext s
    simp [hik]
  have h := outcome_isolation "t" false
    (fun i _ => if i = 1 then HttpResult.transport "timeout"
      else HttpResult.response 200 "")
    (fun i _ => if i = 1 then HttpResult.response 500 "boom"
      else HttpResult.response 200 "")
    [[Json.null], [Json.num 1]] [[Json.null], [Json.num 2]] 1 rfl hb hs
  exact ⟨⟨rfl, hb⟩, h.2.2 0 (by decide)⟩

/-- Claim C9: for every concurrency budget `T` and every batch count, at
no instant are more than `T` batches concurrently executing their submit
step, and the batch population is conserved (pending plus running plus
done always equals the batch count, so queued batches start only as worker
slots free up, with no unbounded fan-out).  The scheduler is the
spec-modelled transition system `SchedStep`; the bound holds in every
state reachable from the initial all-pending state. -/
theorem concurrency_bound (T n : Nat) (outcome : Nat → BatchOutcome)
    (s : SchedState)
    (h : Relation.ReflTransGen (SchedStep T outcome) (schedInit n) s) :
    s.running.length ≤ T ∧
    s.pending.length + s.running.length + s.done.length = n := by
  induction h with
  | refl => simp [schedInit]
  | tail hstep hlast ih =>
    constructor
    · exact schedStep_bound T outcome _ _ hlast ih.1
    · rw [schedStep_conserve T outcome _ _ hlast]
      exact ih.2

/-- Witness for C9: with budget `T = 1` and two batches, the state after
starting batch 0 is reachable, has one running batch (within budget), and
conserves the population. -/
theorem concurrency_bound_witness :
    Relation.ReflTransGen (SchedStep 1 (fun _ => BatchOutcome.success 0))
      (schedInit 2) ⟨[1], [0], []⟩ ∧
    (SchedState.mk [1] [0] []).running.length ≤ 1 ∧
    (SchedState.mk [1] [0] []).pending.length +
      (SchedState.mk [1] [0] []).running.length +
      (SchedState.mk [1] [0] []).done.length = 2 := by
  have hinit : schedInit 2 = ⟨0 :: [1], [], []⟩ := rfl
  have hstep : SchedStep 1 (fun _ => BatchOutcome.success 0)
      (schedInit 2) ⟨[1], [0], []⟩ := by
    rw [hinit]
    exact SchedStep.start 0 [1] [] [] (by decide)
  have hreach := Relation.ReflTransGen.single hstep
  have h := concurrency_bound 1 2 (fun _ => BatchOutcome.success 0)
    ⟨[1], [0], []⟩ hreach
  exact ⟨hreach, h.1, h.2⟩

/-- Claim C10 (implicit): the statement builder performs no quoting,
escaping, or validation of the table name — for every table-name string,
including ones containing spaces, statement terminators, or SurrealQL
syntax, the generated command embeds the table name verbatim between
`INSERT INTO ` and the serialized batch, even when that alters the
command's meaning (demonstrated on an injection-style table name). -/
theorem table_name_verbatim :
    (∀ (t : String) (b : List Json),
        build_insert_stmt t b =
          "INSERT INTO " ++ t ++ " " ++ to_string b ++ " RETURN NONE;") ∧
    build_insert_stmt "users; REMOVE TABLE users" [] =
      "INSERT INTO users; REMOVE TABLE users [] RETURN NONE;" := by
  exact ⟨fun t b => rfl, rfl⟩
